import Mathlib

/-
Verification of the Catan board generator in src/components/ThreeScene.tsx
(the CatanBoard component). The generator assigns terrain types and
probability tokens to 19 hex positions via Fisher-Yates shuffles and
rejection sampling against three fairness validators, with a fallback
after 1000 failed attempts. Randomness is modelled as a stream
rand : Nat -> Nat; the k-th Fisher-Yates draw for current index i uses
rand k % (i + 1), covering exactly the outcomes of
Math.floor(Math.random() * (i + 1)).
-/

namespace Catan

/-- Terrain kinds used on the board; the validators compare only the name
field of the source terrain records, so the embedding keeps the name. -/
inductive Terrain where
  | Wood | Wheat | Sheep | Ore | Brick | Desert
deriving DecidableEq, Repr

open Terrain

/-- The terrain multiset from the source: Wood x4, Wheat x4, Sheep x4,
Ore x3, Brick x3, Desert x1, in source order. -/
def terrains : List Terrain :=
  [Wood, Wood, Wood, Wood,
   Wheat, Wheat, Wheat, Wheat,
   Sheep, Sheep, Sheep, Sheep,
   Ore, Ore, Ore,
   Brick, Brick, Brick,
   Desert]

/-- The token multiset from the source (18 tokens for 18 non-desert hexes). -/
def tokens : List Nat := [2, 3, 3, 4, 4, 5, 5, 6, 6, 8, 8, 9, 9, 10, 10, 11, 11, 12]

/-- The static adjacency table from the source (index to adjacent indices);
keys other than 0..18 are absent in the source object, embedded as []. -/
def adjacencyMap : Nat → List Nat
  | 0 => [1, 3, 4]
  | 1 => [0, 2, 4, 5]
  | 2 => [1, 5, 6]
  | 3 => [0, 4, 7, 8]
  | 4 => [0, 1, 3, 5, 8, 9]
  | 5 => [1, 2, 4, 6, 9, 10]
  | 6 => [2, 5, 10, 11]
  | 7 => [3, 8, 12, 13]
  | 8 => [3, 4, 7, 9, 13, 14]
  | 9 => [4, 5, 8, 10, 14, 15]
  | 10 => [5, 6, 9, 11, 15, 16]
  | 11 => [6, 10, 16, 17]
  | 12 => [7, 13, 16]
  | 13 => [7, 8, 12, 14, 16, 17]
  | 14 => [8, 9, 13, 15, 17, 18]
  | 15 => [9, 10, 14, 18]
  | 16 => [10, 11, 12, 13, 17]
  | 17 => [11, 13, 14, 16, 18]
  | 18 => [14, 15, 17]
  | _ => []

/-- Exchange the entries at positions i and j, the functional rendering of
the destructuring swap in the source shuffle loops. -/
def listSwap (l : List α) (i j : Nat) (d : α) : List α :=
  (l.set i (l.getD j d)).set j (l.getD i d)

/-- The Fisher-Yates loop of the source: for current index i+1 the draw
rand k selects j = rand k % (i + 2) in 0..i+1 and the two entries are
swapped; i counts the remaining iterations down to index 1. -/
def fyAux (rand : Nat → Nat) (d : α) : Nat → List α → Nat → List α × Nat
  | 0, l, k => (l, k)
  | i + 1, l, k => fyAux rand d i (listSwap l (i + 1) (rand k % (i + 2)) d) (k + 1)

/-- A full shuffle of l starting at draw counter k, as in the source. -/
def shuffle (rand : Nat → Nat) (k : Nat) (l : List α) (d : α) : List α × Nat :=
  fyAux rand d (l.length - 1) l k

/-- Walk the shuffled terrains in order, giving the next shuffled token to
each non-Desert position and leaving the Array(19).fill(0) placeholder 0 on
the Desert position, as the source assignment loop does. -/
def assignTokens : List Terrain → List Nat → List Nat
  | [], _ => []
  | t :: ts, toks =>
    if t = Terrain.Desert then 0 :: assignTokens ts toks
    else toks.headD 0 :: assignTokens ts toks.tail

/-- The non-Desert terrain kinds, the possible keys of the source's
resourceTokens object. -/
def resourceKinds : List Terrain := [Wood, Wheat, Sheep, Ore, Brick]

/-- The token list collected for one resource kind by the source's
resourceTokens accumulation (positions 0..18, Desert rows skipped). -/
def resourceTokens (ta : List Nat) (ter : List Terrain) (r : Terrain) : List Nat :=
  (List.range 19).filterMap fun i =>
    if ter.getD i Desert = r then some (ta.getD i 0) else none

/-- Token value 6 or 8, the red (high-frequency) tokens. -/
def isRedTok (t : Nat) : Bool := t == 6 || t == 8

/-- validateRedAdjacency from the source: no non-Desert position holding
6 or 8 may have a non-Desert neighbor in adjacencyMap holding 6 or 8. -/
def validateRedAdjacency (ta : List Nat) (ter : List Terrain) : Bool :=
  (List.range 19).all fun i =>
    if ter.getD i Desert = Desert then true
    else if isRedTok (ta.getD i 0) then
      (adjacencyMap i).all fun adj =>
        if ter.getD adj Desert = Desert then true
        else !isRedTok (ta.getD adj 0)
    else true

/-- validateResourceDistribution from the source: no resource kind may
hold two 6s or two 8s. -/
def validateResourceDistribution (ta : List Nat) (ter : List Terrain) : Bool :=
  resourceKinds.all fun r =>
    decide ((resourceTokens ta ter r).count 6 ≤ 1) &&
    decide ((resourceTokens ta ter r).count 8 ≤ 1)

/-- Token value 2, 3 or 12, the very low numbers of the source. -/
def isLowTok (t : Nat) : Bool := t == 2 || t == 3 || t == 12

/-- validateLowNumberClustering from the source: no resource kind may hold
more than one token from 2, 3, 12. -/
def validateLowNumberClustering (ta : List Nat) (ter : List Terrain) : Bool :=
  resourceKinds.all fun r =>
    decide (((resourceTokens ta ter r).filter isLowTok).length ≤ 1)

/-- One attempt's pair of shuffles: terrains then tokens, each starting
from the full static table, threading the draw counter. -/
def attemptShuffles (rand : Nat → Nat) (k : Nat) : (List Terrain × List Nat) × Nat :=
  let p1 := shuffle rand k terrains Desert
  let p2 := shuffle rand p1.2 tokens 0
  ((p1.1, p2.1), p2.2)

/-- One attempt's candidate board: the shuffled terrains together with the
token assignment built from the shuffled tokens. -/
def attemptAt (rand : Nat → Nat) (k : Nat) : (List Terrain × List Nat) × Nat :=
  let s := attemptShuffles rand k
  ((s.1.1, assignTokens s.1.1 s.1.2), s.2)

/-- The acceptance test of the loop: all three validators pass. -/
def validBoard (b : List Terrain × List Nat) : Bool :=
  validateRedAdjacency b.2 b.1 && validateResourceDistribution b.2 b.1 &&
    validateLowNumberClustering b.2 b.1

/-- The generator's result: terrain and token arrays plus the list of
emitted console.warn diagnostics (each recorded as the attempt count it
reports). -/
structure GenResult where
  terrains : List Terrain
  tokens : List Nat
  warnings : List Nat
deriving DecidableEq, Repr

/-- Package a candidate board and a diagnostic list as a result. -/
def mkResult (b : List Terrain × List Nat) (w : List Nat) : GenResult :=
  ⟨b.1, b.2, w⟩

/-- The while loop of generateValidAssignment with its remaining attempt
budget as fuel: a valid candidate is returned with no diagnostic; when the
budget runs out, one further fresh pair of shuffles is performed and
returned unvalidated together with the single console.warn diagnostic. -/
def genLoop (rand : Nat → Nat) : Nat → Nat → GenResult × Nat
  | 0, k =>
    let a := attemptAt rand k
    (mkResult a.1 [1000], a.2)
  | fuel + 1, k =>
    let a := attemptAt rand k
    if validBoard a.1 then (mkResult a.1 [], a.2)
    else genLoop rand fuel a.2

/-- generateValidAssignment from the source: up to 1000 attempts starting
at draw counter 0. The second component is the total number of random
draws consumed. -/
def generateValidAssignment (rand : Nat → Nat) : GenResult × Nat :=
  genLoop rand 1000 0

/-- The zipped token values at non-Desert positions, in board order. -/
def nonDesertTokens (ter : List Terrain) (ta : List Nat) : List Nat :=
  (ter.zip ta).filterMap fun p => if p.1 = Terrain.Desert then none else some p.2

/-- dotCount of the Hexagon renderer: 6 - |7 - tokenNumber|. -/
def dotCount (n : Int) : Int := 6 - |7 - n|

/-- isRed of the Hexagon renderer: the token is drawn red exactly when its
dot count is 5. -/
def isRed (n : Int) : Bool := dotCount n == 5

/-- Pulling the m-th entry of t to the front while writing a into slot m
is a permutation of putting a on the front. -/
theorem set_getD_perm (d : α) :
    ∀ (t : List α) (m : Nat) (a : α), m < t.length →
      List.Perm (t.getD m d :: t.set m a) (a :: t) := by
  intro t
  induction t with
  | nil => intro m a h; simp at h
  | cons b t ih =>
    intro m a h
    cases m with
    | zero => simp [List.Perm.swap]
    | succ m =>
      simp only [List.getD_cons_succ, List.set_cons_succ]
      have h' : m < t.length := by simpa using h
      have s1 : List.Perm (t.getD m d :: b :: t.set m a) (b :: t.getD m d :: t.set m a) :=
        List.Perm.swap _ _ _
      have s2 : List.Perm (b :: t.getD m d :: t.set m a) (b :: a :: t) :=
        List.Perm.cons _ (ih m a h')
      have s3 : List.Perm (b :: a :: t) (a :: b :: t) := List.Perm.swap _ _ _
      exact List.Perm.trans s1 (List.Perm.trans s2 s3)

/-- Swapping two in-range entries permutes the list. -/
theorem listSwap_perm (d : α) :
    ∀ (l : List α) (i j : Nat), i < l.length → j < l.length →
      List.Perm (listSwap l i j d) l := by
  intro l
  induction l with
  | nil => intro i j h; simp at h
  | cons b t ih =>
    intro i j hi hj
    cases i with
    | zero =>
      cases j with
      | zero => simp [listSwap]
      | succ j =>
        have hj' : j < t.length := by simpa using hj
        simp only [listSwap, List.getD_cons_succ, List.getD_cons_zero,
          List.set_cons_zero, List.set_cons_succ]
        exact set_getD_perm d t j b hj'
    | succ i =>
      cases j with
      | zero =>
        have hi' : i < t.length := by simpa using hi
        simp only [listSwap, List.getD_cons_succ, List.getD_cons_zero,
          List.set_cons_zero, List.set_cons_succ]
        exact set_getD_perm d t i b hi'
      | succ j =>
        have hi' : i < t.length := by simpa using hi
        have hj' : j < t.length := by simpa using hj
        simp only [listSwap, List.getD_cons_succ, List.set_cons_succ]
        exact List.Perm.cons b (ih i j hi' hj')

theorem listSwap_length (d : α) (l : List α) (i j : Nat) :
    (listSwap l i j d).length = l.length := by
  simp [listSwap]

/-- The Fisher-Yates loop consumes exactly one draw per iteration. -/
theorem fyAux_snd (rand : Nat → Nat) (d : α) :
    ∀ (i : Nat) (l : List α) (k : Nat), (fyAux rand d i l k).2 = k + i := by
  intro i
  induction i with
  | zero => intro l k; simp [fyAux]
  | succ i ih =>
    intro l k
    rw [fyAux, ih]
    omega

theorem fyAux_length (rand : Nat → Nat) (d : α) :
    ∀ (i : Nat) (l : List α) (k : Nat), (fyAux rand d i l k).1.length = l.length := by
  intro i
  induction i with
  | zero => intro l k; simp [fyAux]
  | succ i ih =>
    intro l k
    rw [fyAux, ih, listSwap_length]

/-- The Fisher-Yates loop permutes its input when started in range. -/
theorem fyAux_perm (rand : Nat → Nat) (d : α) :
    ∀ (i : Nat) (l : List α) (k : Nat), i < l.length →
      List.Perm (fyAux rand d i l k).1 l := by
  intro i
  induction i with
  | zero => intro l k h; simp [fyAux]
  | succ i ih =>
    intro l k h
    have hj : rand k % (i + 2) < l.length :=
      lt_of_lt_of_le (Nat.mod_lt _ (by omega)) (by omega)
    have hlen : i < (listSwap l (i + 1) (rand k % (i + 2)) d).length := by
      rw [listSwap_length]; omega
    rw [fyAux]
    exact List.Perm.trans (ih _ (k + 1) hlen) (listSwap_perm d l (i + 1) _ h hj)

/-- The Fisher-Yates result depends only on the draws it consumes, even
from different starting counters. -/
theorem fyAux_congr (d : α) (r1 r2 : Nat → Nat) :
    ∀ (i : Nat) (l : List α) (k1 k2 : Nat),
      (∀ t, t < i → r1 (k1 + t) = r2 (k2 + t)) →
      (fyAux r1 d i l k1).1 = (fyAux r2 d i l k2).1 := by
  intro i
  induction i with
  | zero => intro l k1 k2 _; simp [fyAux]
  | succ i ih =>
    intro l k1 k2 hagree
    have h0 : r1 k1 = r2 k2 := by simpa using hagree 0 (by omega)
    rw [fyAux, fyAux, h0]
    exact ih _ (k1 + 1) (k2 + 1) fun t ht => by
      have := hagree (t + 1) (by omega)
      simpa [Nat.add_assoc, Nat.add_comm 1 t] using this

theorem attemptShuffles_snd (rand : Nat → Nat) (k : Nat) :
    (attemptShuffles rand k).2 = k + 35 := by
  simp only [attemptShuffles, shuffle, fyAux_snd]
  rfl

theorem attemptAt_snd (rand : Nat → Nat) (k : Nat) :
    (attemptAt rand k).2 = k + 35 := by
  simp only [attemptAt]
  exact attemptShuffles_snd rand k

theorem attemptShuffles_terrains_perm (rand : Nat → Nat) (k : Nat) :
    List.Perm (attemptShuffles rand k).1.1 terrains := by
  simp only [attemptShuffles, shuffle]
  exact fyAux_perm rand Desert (terrains.length - 1) terrains k (by decide)

theorem attemptShuffles_tokens_perm (rand : Nat → Nat) (k : Nat) :
    List.Perm (attemptShuffles rand k).1.2 tokens := by
  simp only [attemptShuffles, shuffle]
  exact fyAux_perm rand 0 (tokens.length - 1) tokens _ (by decide)

/-- An attempt's board depends only on the 35 draws it consumes, even
from different starting counters. -/
theorem attemptShuffles_congr (r1 r2 : Nat → Nat) (k1 k2 : Nat)
    (h : ∀ t, t < 35 → r1 (k1 + t) = r2 (k2 + t)) :
    (attemptShuffles r1 k1).1 = (attemptShuffles r2 k2).1 := by
  have h1 : (fyAux r1 Desert 18 terrains k1).1 = (fyAux r2 Desert 18 terrains k2).1 :=
    fyAux_congr Desert r1 r2 18 terrains k1 k2 fun t ht => h t (by omega)
  have hs1 : (fyAux r1 Desert 18 terrains k1).2 = k1 + 18 := fyAux_snd r1 Desert 18 terrains k1
  have hs2 : (fyAux r2 Desert 18 terrains k2).2 = k2 + 18 := fyAux_snd r2 Desert 18 terrains k2
  have h2 : (fyAux r1 0 17 tokens (k1 + 18)).1 = (fyAux r2 0 17 tokens (k2 + 18)).1 :=
    fyAux_congr 0 r1 r2 17 tokens (k1 + 18) (k2 + 18) fun t ht => by
      have := h (18 + t) (by omega)
      simpa [Nat.add_assoc] using this
  simp only [attemptShuffles, shuffle]
  rw [show terrains.length - 1 = 18 from rfl, show tokens.length - 1 = 17 from rfl]
  rw [hs1, hs2, h1, h2]

theorem attemptAt_congr (r1 r2 : Nat → Nat) (k1 k2 : Nat)
    (h : ∀ t, t < 35 → r1 (k1 + t) = r2 (k2 + t)) :
    (attemptAt r1 k1).1 = (attemptAt r2 k2).1 := by
  simp only [attemptAt]
  rw [attemptShuffles_congr r1 r2 k1 k2 h]

theorem assignTokens_length :
    ∀ (ter : List Terrain) (toks : List Nat),
      (assignTokens ter toks).length = ter.length := by
  intro ter
  induction ter with
  | nil => intro toks; rfl
  | cons t ts ih =>
    intro toks
    by_cases h : t = Terrain.Desert <;> simp [assignTokens, h, ih]

/-- Desert positions keep the placeholder token 0. -/
theorem assignTokens_desert :
    ∀ (ter : List Terrain) (toks : List Nat) (i : Nat),
      ter.getD i Desert = Desert → (assignTokens ter toks).getD i 0 = 0 := by
  intro ter
  induction ter with
  | nil => intro toks i _; simp [assignTokens]
  | cons t ts ih =>
    intro toks i hd
    cases i with
    | zero =>
      simp only [List.getD_cons_zero] at hd
      simp [assignTokens, hd]
    | succ i =>
      simp only [List.getD_cons_succ] at hd
      by_cases h : t = Terrain.Desert
      · rw [show assignTokens (t :: ts) toks = 0 :: assignTokens ts toks from by
          simp [assignTokens, h]]
        rw [List.getD_cons_succ]
        exact ih toks i hd
      · rw [show assignTokens (t :: ts) toks
            = toks.headD 0 :: assignTokens ts toks.tail from by
          simp [assignTokens, h]]
        rw [List.getD_cons_succ]
        exact ih toks.tail i hd

/-- When the non-Desert positions are exactly as many as the tokens, the
assignment walk places the token list, in order, on the non-Desert
positions. -/
theorem nonDesertTokens_assign :
    ∀ (ter : List Terrain) (toks : List Nat),
      ter.countP (fun t => !(t == Terrain.Desert)) = toks.length →
      nonDesertTokens ter (assignTokens ter toks) = toks := by
  intro ter
  induction ter with
  | nil =>
    intro toks h
    simp only [List.countP_nil] at h
    rw [List.length_eq_zero.mp h.symm]
    rfl
  | cons t ts ih =>
    intro toks h
    rw [List.countP_cons] at h
    by_cases hd : t = Terrain.Desert
    · simp only [hd] at h
      simp only [show (!(Terrain.Desert == Terrain.Desert)) = false from rfl,
        if_neg (by simp : ¬(false = true)), Nat.add_zero] at h
      rw [show assignTokens (t :: ts) toks = 0 :: assignTokens ts toks from by
        simp [assignTokens, hd]]
      rw [show nonDesertTokens (t :: ts) (0 :: assignTokens ts toks)
          = nonDesertTokens ts (assignTokens ts toks) from by
        simp [nonDesertTokens, hd]]
      exact ih toks h
    · have hne : (!(t == Terrain.Desert)) = true := by simp [hd]
      rw [hne, if_pos rfl] at h
      cases toks with
      | nil => simp at h
      | cons x xs =>
        simp only [List.length_cons] at h
        have h' : ts.countP (fun t => !(t == Terrain.Desert)) = xs.length := by omega
        rw [show assignTokens (t :: ts) (x :: xs) = x :: assignTokens ts xs from by
          simp [assignTokens, hd]]
        rw [show nonDesertTokens (t :: ts) (x :: assignTokens ts xs)
            = x :: nonDesertTokens ts (assignTokens ts xs) from by
          simp [nonDesertTokens, hd]]
        exact congrArg (x :: ·) (ih xs h')


theorem mkResult_terrains (b : List Terrain × List Nat) (w : List Nat) :
    (mkResult b w).terrains = b.1 := rfl

theorem mkResult_tokens (b : List Terrain × List Nat) (w : List Nat) :
    (mkResult b w).tokens = b.2 := rfl

theorem mkResult_warnings (b : List Terrain × List Nat) (w : List Nat) :
    (mkResult b w).warnings = w := rfl

theorem attemptAt_fst_fst (rand : Nat → Nat) (k : Nat) :
    (attemptAt rand k).1.1 = (attemptShuffles rand k).1.1 := by
  simp only [attemptAt]

theorem attemptAt_fst_snd (rand : Nat → Nat) (k : Nat) :
    (attemptAt rand k).1.2 =
      assignTokens (attemptShuffles rand k).1.1 (attemptShuffles rand k).1.2 := by
  simp only [attemptAt]

theorem genLoop_zero (rand : Nat → Nat) (k : Nat) :
    genLoop rand 0 k = (mkResult (attemptAt rand k).1 [1000], k + 35) := by
  simp only [genLoop]
  rw [attemptAt_snd]

theorem genLoop_succ_valid (rand : Nat → Nat) (fuel k : Nat)
    (h : validBoard (attemptAt rand k).1 = true) :
    genLoop rand (fuel + 1) k = (mkResult (attemptAt rand k).1 [], k + 35) := by
  simp only [genLoop]
  rw [if_pos h, attemptAt_snd]

theorem genLoop_succ_invalid (rand : Nat → Nat) (fuel k : Nat)
    (h : validBoard (attemptAt rand k).1 = false) :
    genLoop rand (fuel + 1) k = genLoop rand fuel (k + 35) := by
  simp only [genLoop]
  rw [if_neg (by simp [h]), attemptAt_snd]

theorem genLoop_snd_le (rand : Nat → Nat) :
    ∀ (fuel k : Nat), (genLoop rand fuel k).2 ≤ k + 35 * (fuel + 1) := by
  intro fuel
  induction fuel with
  | zero =>
    intro k
    rw [genLoop_zero]
  | succ fuel ih =>
    intro k
    by_cases h : validBoard (attemptAt rand k).1 = true
    · rw [genLoop_succ_valid rand fuel k h]
      simp only []
      omega
    · rw [genLoop_succ_invalid rand fuel k (by simpa using h)]
      have := ih (k + 35)
      omega

theorem genLoop_snd_ge (rand : Nat → Nat) :
    ∀ (fuel k : Nat), k + 35 ≤ (genLoop rand fuel k).2 := by
  intro fuel
  induction fuel with
  | zero =>
    intro k
    rw [genLoop_zero]
  | succ fuel ih =>
    intro k
    by_cases h : validBoard (attemptAt rand k).1 = true
    · rw [genLoop_succ_valid rand fuel k h]
    · rw [genLoop_succ_invalid rand fuel k (by simpa using h)]
      have := ih (k + 35)
      omega

/-- Every result of the loop is a shuffled terrain permutation together
with the token assignment of some shuffled token permutation. -/
theorem genLoop_inv (rand : Nat → Nat) :
    ∀ (fuel k : Nat), ∃ stk, List.Perm stk tokens ∧
      List.Perm (genLoop rand fuel k).1.terrains terrains ∧
      (genLoop rand fuel k).1.tokens =
        assignTokens (genLoop rand fuel k).1.terrains stk := by
  intro fuel
  induction fuel with
  | zero =>
    intro k
    rw [genLoop_zero]
    refine ⟨(attemptShuffles rand k).1.2, attemptShuffles_tokens_perm rand k, ?_, ?_⟩
    · rw [mkResult_terrains, attemptAt_fst_fst]
      exact attemptShuffles_terrains_perm rand k
    · rw [mkResult_tokens, mkResult_terrains, attemptAt_fst_fst, attemptAt_fst_snd]
  | succ fuel ih =>
    intro k
    by_cases h : validBoard (attemptAt rand k).1 = true
    · rw [genLoop_succ_valid rand fuel k h]
      refine ⟨(attemptShuffles rand k).1.2, attemptShuffles_tokens_perm rand k, ?_, ?_⟩
      · rw [mkResult_terrains, attemptAt_fst_fst]
        exact attemptShuffles_terrains_perm rand k
      · rw [mkResult_tokens, mkResult_terrains, attemptAt_fst_fst, attemptAt_fst_snd]
    · rw [genLoop_succ_invalid rand fuel k (by simpa using h)]
      exact ih (k + 35)

/-- A result without the fallback diagnostic passed all three validators. -/
theorem genLoop_valid_no_warning (rand : Nat → Nat) :
    ∀ (fuel k : Nat), (genLoop rand fuel k).1.warnings = [] →
      validBoard ((genLoop rand fuel k).1.terrains, (genLoop rand fuel k).1.tokens) = true := by
  intro fuel
  induction fuel with
  | zero =>
    intro k h
    rw [genLoop_zero] at h
    simp only [mkResult_warnings] at h
    exact absurd h (by simp)
  | succ fuel ih =>
    intro k
    by_cases h : validBoard (attemptAt rand k).1 = true
    · rw [genLoop_succ_valid rand fuel k h]
      intro _
      rw [mkResult_terrains, mkResult_tokens, Prod.mk.eta]
      exact h
    · rw [genLoop_succ_invalid rand fuel k (by simpa using h)]
      exact ih (k + 35)

/-- The diagnostic list is empty or exactly the single fallback notice. -/
theorem genLoop_warning_shape (rand : Nat → Nat) :
    ∀ (fuel k : Nat), (genLoop rand fuel k).1.warnings = [] ∨
      (genLoop rand fuel k).1.warnings = [1000] := by
  intro fuel
  induction fuel with
  | zero =>
    intro k
    rw [genLoop_zero]
    exact Or.inr rfl
  | succ fuel ih =>
    intro k
    by_cases h : validBoard (attemptAt rand k).1 = true
    · rw [genLoop_succ_valid rand fuel k h]
      exact Or.inl rfl
    · rw [genLoop_succ_invalid rand fuel k (by simpa using h)]
      exact ih (k + 35)

/-- No diagnostic is emitted exactly when some attempt within the budget
passes validation. -/
theorem genLoop_no_warning_iff (rand : Nat → Nat) :
    ∀ (fuel k : Nat), ((genLoop rand fuel k).1.warnings = [] ↔
      ∃ m, m < fuel ∧ validBoard ((attemptAt rand (k + 35 * m)).1) = true) := by
  intro fuel
  induction fuel with
  | zero =>
    intro k
    rw [genLoop_zero]
    constructor
    · intro h
      rw [mkResult_warnings] at h
      exact absurd h (by simp)
    · rintro ⟨m, hm, _⟩
      omega
  | succ fuel ih =>
    intro k
    by_cases h : validBoard (attemptAt rand k).1 = true
    · rw [genLoop_succ_valid rand fuel k h]
      constructor
      · intro _
        refine ⟨0, by omega, ?_⟩
        rw [Nat.mul_zero, Nat.add_zero]
        exact h
      · intro _
        exact mkResult_warnings _ _
    · rw [genLoop_succ_invalid rand fuel k (by simpa using h)]
      rw [ih (k + 35)]
      constructor
      · rintro ⟨m, hm, hv⟩
        refine ⟨m + 1, by omega, ?_⟩
        rw [show k + 35 * (m + 1) = k + 35 + 35 * m from by ring]
        exact hv
      · rintro ⟨m, hm, hv⟩
        cases m with
        | zero =>
          rw [Nat.mul_zero, Nat.add_zero] at hv
          exact absurd hv h
        | succ m =>
          refine ⟨m, by omega, ?_⟩
          rw [show k + 35 + 35 * m = k + 35 * (m + 1) from by ring]
          exact hv

/-- When every attempt in the budget fails, the loop returns the fallback:
one further fresh pair of shuffles, unvalidated, with the single notice. -/
theorem genLoop_all_fail (rand : Nat → Nat) :
    ∀ (fuel k : Nat),
      (∀ m, m < fuel → validBoard ((attemptAt rand (k + 35 * m)).1) = false) →
      genLoop rand fuel k =
        (mkResult (attemptAt rand (k + 35 * fuel)).1 [1000], k + 35 * fuel + 35) := by
  intro fuel
  induction fuel with
  | zero =>
    intro k _
    rw [genLoop_zero]
    rw [show k + 35 * 0 = k from by ring]
  | succ fuel ih =>
    intro k hall
    have h0 : validBoard ((attemptAt rand k).1) = false := by
      have := hall 0 (by omega)
      rwa [Nat.mul_zero, Nat.add_zero] at this
    rw [genLoop_succ_invalid rand fuel k h0]
    rw [ih (k + 35) fun m hm => by
      have := hall (m + 1) (by omega)
      rwa [show k + 35 * (m + 1) = k + 35 + 35 * m from by ring] at this]
    rw [show k + 35 + 35 * fuel = k + 35 * (fuel + 1) from by ring]

/-- The loop's outcome depends only on the draws it consumes. -/
theorem genLoop_congr (r1 r2 : Nat → Nat) :
    ∀ (fuel k : Nat),
      (∀ m, k ≤ m → m < (genLoop r1 fuel k).2 → r1 m = r2 m) →
      genLoop r1 fuel k = genLoop r2 fuel k := by
  intro fuel
  induction fuel with
  | zero =>
    intro k hagree
    have hb : (attemptAt r1 k).1 = (attemptAt r2 k).1 := by
      apply attemptAt_congr
      intro t ht
      apply hagree (k + t) (by omega)
      rw [genLoop_zero]
      simp only []
      omega
    rw [genLoop_zero, genLoop_zero, hb]
  | succ fuel ih =>
    intro k hagree
    have h35 : k + 35 ≤ (genLoop r1 (fuel + 1) k).2 := genLoop_snd_ge r1 (fuel + 1) k
    have hb : (attemptAt r1 k).1 = (attemptAt r2 k).1 := by
      apply attemptAt_congr
      intro t ht
      exact hagree (k + t) (by omega) (by omega)
    by_cases h : validBoard (attemptAt r1 k).1 = true
    · have h2 : validBoard (attemptAt r2 k).1 = true := by rw [← hb]; exact h
      rw [genLoop_succ_valid r1 fuel k h, genLoop_succ_valid r2 fuel k h2, hb]
    · have h' : validBoard (attemptAt r1 k).1 = false := by simpa using h
      have h2 : validBoard (attemptAt r2 k).1 = false := by rw [← hb]; exact h'
      have hrec : (genLoop r1 (fuel + 1) k).2 = (genLoop r1 fuel (k + 35)).2 := by
        rw [genLoop_succ_invalid r1 fuel k h']
      rw [genLoop_succ_invalid r1 fuel k h', genLoop_succ_invalid r2 fuel k h2]
      apply ih (k + 35)
      intro m hm1 hm2
      exact hagree m (by omega) (by omega)

theorem generateValidAssignment_eq (rand : Nat → Nat) :
    generateValidAssignment rand = genLoop rand 1000 0 := rfl

/-- No position holding a red token (6 or 8) has a non-Desert neighbor in
the adjacency table that also holds a red token. -/
def NoRedAdjacent (ter : List Terrain) (ta : List Nat) : Prop :=
  ∀ p, p < 19 → (ta.getD p 0 = 6 ∨ ta.getD p 0 = 8) →
    ∀ q, q ∈ adjacencyMap p → ter.getD q Desert ≠ Desert →
      ¬(ta.getD q 0 = 6 ∨ ta.getD q 0 = 8)

/-- Each non-Desert terrain kind holds at most one 6 and at most one 8. -/
def AtMostOne68 (ter : List Terrain) (ta : List Nat) : Prop :=
  ∀ r, r ∈ resourceKinds →
    (resourceTokens ta ter r).count 6 ≤ 1 ∧ (resourceTokens ta ter r).count 8 ≤ 1

/-- Each non-Desert terrain kind holds at most one token from 2, 3, 12. -/
def AtMostOneLow (ter : List Terrain) (ta : List Nat) : Prop :=
  ∀ r, r ∈ resourceKinds →
    ((resourceTokens ta ter r).filter isLowTok).length ≤ 1

theorem validateResourceDistribution_iff (ta : List Nat) (ter : List Terrain) :
    validateResourceDistribution ta ter = true ↔ AtMostOne68 ter ta := by
  simp [validateResourceDistribution, AtMostOne68, List.all_eq_true,
    Bool.and_eq_true, decide_eq_true_iff]

theorem validateLowNumberClustering_iff (ta : List Nat) (ter : List Terrain) :
    validateLowNumberClustering ta ter = true ↔ AtMostOneLow ter ta := by
  simp [validateLowNumberClustering, AtMostOneLow, List.all_eq_true, decide_eq_true_iff]

/-- On a board whose Desert positions hold the placeholder 0, the red
adjacency validator implies the semantic red-separation property. -/
theorem validateRedAdjacency_sound (ta : List Nat) (ter : List Terrain)
    (hd : ∀ p, ter.getD p Desert = Desert → ta.getD p 0 = 0)
    (hv : validateRedAdjacency ta ter = true) : NoRedAdjacent ter ta := by
  intro p hp hred q hq hqd
  rw [validateRedAdjacency, List.all_eq_true] at hv
  have h1 := hv p (List.mem_range.mpr hp)
  by_cases hpd : ter.getD p Desert = Desert
  · have h0 := hd p hpd
    rcases hred with h | h <;> omega
  · rw [if_neg hpd] at h1
    have hr : isRedTok (ta.getD p 0) = true := by
      rcases hred with h | h <;> rw [h] <;> rfl
    rw [if_pos hr, List.all_eq_true] at h1
    have h2 := h1 q hq
    rw [if_neg hqd] at h2
    intro hc
    rcases hc with h | h <;> rw [h] at h2 <;> exact absurd h2 (by decide)

/-- Row of a position index in the row-major 3-4-5-4-3 grid described by
the spec: rows 0..4 hold indices 0-2, 3-6, 7-11, 12-15 and 16-18. -/
def rowOf (i : Nat) : Nat :=
  if i < 3 then 0 else if i < 7 then 1 else if i < 12 then 2 else if i < 16 then 3 else 4

/-- First index of each row of the 3-4-5-4-3 grid. -/
def rowStart (r : Nat) : Nat :=
  if r = 0 then 0 else if r = 1 then 3 else if r = 2 then 7 else if r = 3 then 12 else 16

/-- Number of cells in each row of the 3-4-5-4-3 grid. -/
def rowLen (r : Nat) : Nat :=
  if r = 0 then 3 else if r = 1 then 4 else if r = 2 then 5 else if r = 3 then 4 else 3

/-- Column of a position index within its row. -/
def colOf (i : Nat) : Nat := i - rowStart (rowOf i)

/-- Twice the horizontal offset of a cell from its row center; rows are
centered as in the renderer (startX = -(count - 1) * width / 2). -/
def hexX (i : Nat) : Int := 2 * (colOf i : Int) - ((rowLen (rowOf i) : Int) - 1)

/-- Spec-side edge-sharing relation of the 3-4-5-4-3 hex grid, written
from the spec's description of the board geometry: two cells share an edge
exactly when they sit in the same row at adjacent columns (full-cell
horizontal offset) or in adjacent rows at half-cell horizontal offset. -/
def sharesEdge (p q : Nat) : Bool :=
  (rowOf p == rowOf q && (hexX p - hexX q).natAbs == 2) ||
  (((rowOf p : Int) - (rowOf q : Int)).natAbs == 1 && (hexX p - hexX q).natAbs == 1)

/-- A random stream whose first attempt already passes all validators. -/
def randGood : Nat → Nat := fun k => (10 * k * k + 4 * k) % 97

/-- The all-zero random stream: every attempt fails validation. -/
def randZero : Nat → Nat := fun _ => 0

/-- The all-one random stream: every attempt fails validation. -/
def randOne : Nat → Nat := fun _ => 1

/-- A stream alternating per 35-draw block between the zero and the one
pattern, so consecutive attempts produce two distinct failing boards. -/
def randAlt : Nat → Nat := fun k => if (k / 35) % 2 = 0 then 0 else 1

/-- Agrees with randGood on the 35 draws its first attempt consumes and
differs afterwards. -/
def randGoodVar : Nat → Nat := fun k => if k < 35 then randGood k else randGood k + 1

theorem randZero_attempt_shift (k : Nat) :
    (attemptAt randZero k).1 = (attemptAt randZero 0).1 := by
  apply attemptAt_congr
  intro t ht
  rfl

theorem randOne_attempt_shift (k : Nat) :
    (attemptAt randOne k).1 = (attemptAt randOne 0).1 := by
  apply attemptAt_congr
  intro t ht
  rfl

/-- Each 35-draw block of randAlt replays the zero pattern on even blocks
and the one pattern on odd blocks. -/
theorem randAlt_attempt (m : Nat) :
    (attemptAt randAlt (35 * m)).1 =
      if m % 2 = 0 then (attemptAt randZero 0).1 else (attemptAt randOne 0).1 := by
  have hdiv : ∀ t, t < 35 → (35 * m + t) / 35 = m := by
    intro t ht
    rw [Nat.mul_add_div (by omega)]
    rw [Nat.div_eq_of_lt ht]
    omega
  by_cases hp : m % 2 = 0
  · rw [if_pos hp]
    apply attemptAt_congr
    intro t ht
    show (if ((35 * m + t) / 35) % 2 = 0 then 0 else 1) = 0
    rw [hdiv t ht, if_pos hp]
  · rw [if_neg hp]
    apply attemptAt_congr
    intro t ht
    show (if ((35 * m + t) / 35) % 2 = 0 then 0 else 1) = 1
    rw [hdiv t ht, if_neg hp]

theorem randZero_invalid : validBoard (attemptAt randZero 0).1 = false := by decide

theorem randOne_invalid : validBoard (attemptAt randOne 0).1 = false := by decide

theorem randZero_randOne_boards_differ :
    (attemptAt randZero 0).1 ≠ (attemptAt randOne 0).1 := by decide

/-- C1: every assignment returned through the validation path (accepted
before the attempt budget is exhausted, i.e. with no fallback diagnostic)
satisfies all three fairness predicates: no position holding 6 or 8 has a
non-Desert adjacency-table neighbor holding 6 or 8; every non-Desert
terrain kind holds at most one 6 and at most one 8; and every non-Desert
terrain kind holds at most one token from 2, 3, 12. -/
theorem generator_validated_fairness (rand : Nat → Nat)
    (h : (generateValidAssignment rand).1.warnings = []) :
    NoRedAdjacent (generateValidAssignment rand).1.terrains
        (generateValidAssignment rand).1.tokens ∧
    AtMostOne68 (generateValidAssignment rand).1.terrains
        (generateValidAssignment rand).1.tokens ∧
    AtMostOneLow (generateValidAssignment rand).1.terrains
        (generateValidAssignment rand).1.tokens := by
  rw [generateValidAssignment_eq] at h ⊢
  have hv := genLoop_valid_no_warning rand 1000 0 h
  rw [show ∀ (ter : List Terrain) (ta : List Nat), validBoard (ter, ta) =
      (validateRedAdjacency ta ter && validateResourceDistribution ta ter &&
        validateLowNumberClustering ta ter) from fun ter ta => rfl,
    Bool.and_eq_true, Bool.and_eq_true] at hv
  obtain ⟨⟨h1, h2⟩, h3⟩ := hv
  obtain ⟨stk, hstk, hterp, htok⟩ := genLoop_inv rand 1000 0
  have hd : ∀ p, (genLoop rand 1000 0).1.terrains.getD p Desert = Desert →
      (genLoop rand 1000 0).1.tokens.getD p 0 = 0 := by
    intro p hp
    rw [htok]
    exact assignTokens_desert _ stk p hp
  exact ⟨validateRedAdjacency_sound _ _ hd h1,
    (validateResourceDistribution_iff _ _).mp h2,
    (validateLowNumberClustering_iff _ _).mp h3⟩

set_option maxHeartbeats 4000000 in
/-- Witness for C1 at the concrete stream randGood, whose first attempt
already passes validation. -/
theorem generator_validated_fairness_witness :
    (generateValidAssignment randGood).1.warnings = [] ∧
    (NoRedAdjacent (generateValidAssignment randGood).1.terrains
        (generateValidAssignment randGood).1.tokens ∧
     AtMostOne68 (generateValidAssignment randGood).1.terrains
        (generateValidAssignment randGood).1.tokens ∧
     AtMostOneLow (generateValidAssignment randGood).1.terrains
        (generateValidAssignment randGood).1.tokens) := by
  have h : (generateValidAssignment randGood).1.warnings = [] := by decide
  exact ⟨h, generator_validated_fairness randGood h⟩

/-- C2: every returned assignment (validated or fallback) fills all 19
positions with a permutation of the fixed terrain multiset, has exactly
one Desert which keeps no token (placeholder 0), and places the 18 tokens
of the fixed token multiset exactly once across the non-Desert
positions. -/
theorem generator_structure (rand : Nat → Nat) :
    (generateValidAssignment rand).1.terrains.length = 19 ∧
    List.Perm (generateValidAssignment rand).1.terrains terrains ∧
    (generateValidAssignment rand).1.terrains.count Terrain.Desert = 1 ∧
    (generateValidAssignment rand).1.tokens.length = 19 ∧
    (∀ i, (generateValidAssignment rand).1.terrains.getD i Terrain.Desert = Terrain.Desert →
      (generateValidAssignment rand).1.tokens.getD i 0 = 0) ∧
    List.Perm (nonDesertTokens (generateValidAssignment rand).1.terrains
      (generateValidAssignment rand).1.tokens) tokens := by
  rw [generateValidAssignment_eq]
  obtain ⟨stk, hstk, hterp, htok⟩ := genLoop_inv rand 1000 0
  have hlen : (genLoop rand 1000 0).1.terrains.length = 19 := by
    rw [hterp.length_eq]
    rfl
  refine ⟨hlen, hterp, ?_, ?_, ?_, ?_⟩
  · rw [hterp.count_eq]
    decide
  · rw [htok, assignTokens_length]
    exact hlen
  · intro i hi
    rw [htok]
    exact assignTokens_desert _ stk i hi
  · have hcount : (genLoop rand 1000 0).1.terrains.countP
        (fun t => !(t == Terrain.Desert)) = stk.length := by
      rw [hterp.countP_eq, hstk.length_eq]
      decide
    rw [htok, nonDesertTokens_assign _ stk hcount]
    exact hstk

/-- Witness for C2: the token multiset property evaluated at randGood. -/
theorem generator_structure_witness :
    List.Perm (nonDesertTokens (generateValidAssignment randGood).1.terrains
      (generateValidAssignment randGood).1.tokens) tokens :=
  (generator_structure randGood).2.2.2.2.2

/-- C3 evidence: the static adjacency table disagrees with the
edge-sharing relation of the 3-4-5-4-3 grid. Hexes 12 and 8 share an edge
but 8 is missing from adjacencyMap 12; adjacencyMap 16 lists 10 and
adjacencyMap 7 lists 13 although those pairs share no edge. -/
theorem adjacencyMap_mismatch :
    (8 ∉ adjacencyMap 12 ∧ sharesEdge 12 8 = true) ∧
    (10 ∈ adjacencyMap 16 ∧ sharesEdge 16 10 = false) ∧
    (13 ∈ adjacencyMap 7 ∧ sharesEdge 7 13 = false) := by
  decide

/-- C4 counterexample: with the stream randAlt every attempt fails, so
the budget is exhausted, and the returned board is NOT the candidate of
the final (1000th) attempt: the fallback path reshuffles afresh. -/
theorem fallback_differs_from_last_attempt :
    (generateValidAssignment randAlt).1.warnings ≠ [] ∧
    ((generateValidAssignment randAlt).1.terrains,
      (generateValidAssignment randAlt).1.tokens) ≠ (attemptAt randAlt (35 * 999)).1 := by
  have hall : ∀ m, m < 1000 → validBoard ((attemptAt randAlt (0 + 35 * m)).1) = false := by
    intro m hm
    rw [Nat.zero_add, randAlt_attempt m]
    by_cases hp : m % 2 = 0
    · rw [if_pos hp]
      exact randZero_invalid
    · rw [if_neg hp]
      exact randOne_invalid
  have he := genLoop_all_fail randAlt 1000 0 hall
  rw [Nat.zero_add] at he
  constructor
  · rw [generateValidAssignment_eq]
    simp only [he, mkResult_warnings]
    simp
  · rw [generateValidAssignment_eq]
    simp only [he, mkResult_terrains, mkResult_tokens]
    rw [Prod.mk.eta]
    rw [randAlt_attempt 1000, randAlt_attempt 999]
    rw [if_pos (by norm_num : (1000 : Nat) % 2 = 0)]
    rw [if_neg (by norm_num : ¬(999 : Nat) % 2 = 0)]
    exact randZero_randOne_boards_differ

/-- C4 amended: when every attempt in the budget fails validation, the
generator emits the single diagnostic and returns the candidate produced
by one additional fresh pair of shuffles (drawing at counter 35 * 1000),
rather than the final attempt's candidate, and never raises. -/
theorem fallback_is_fresh_shuffle (rand : Nat → Nat)
    (h : ∀ m, m < 1000 → validBoard ((attemptAt rand (35 * m)).1) = false) :
    (generateValidAssignment rand).1.warnings = [1000] ∧
    (generateValidAssignment rand).1.terrains = (attemptAt rand (35 * 1000)).1.1 ∧
    (generateValidAssignment rand).1.tokens = (attemptAt rand (35 * 1000)).1.2 ∧
    (generateValidAssignment rand).2 = 35 * 1000 + 35 := by
  have hall : ∀ m, m < 1000 → validBoard ((attemptAt rand (0 + 35 * m)).1) = false := by
    intro m hm
    rw [Nat.zero_add]
    exact h m hm
  have he := genLoop_all_fail rand 1000 0 hall
  rw [Nat.zero_add] at he
  refine ⟨?_, ?_, ?_, ?_⟩ <;>
    simp only [generateValidAssignment_eq, he, mkResult_warnings,
      mkResult_terrains, mkResult_tokens]

/-- Witness for the amended C4 at the concrete stream randZero, all of
whose attempts fail validation. -/
theorem fallback_is_fresh_shuffle_witness :
    (∀ m, m < 1000 → validBoard ((attemptAt randZero (35 * m)).1) = false) ∧
    (generateValidAssignment randZero).1.warnings = [1000] := by
  have h : ∀ m, m < 1000 → validBoard ((attemptAt randZero (35 * m)).1) = false := by
    intro m hm
    rw [randZero_attempt_shift]
    exact randZero_invalid
  exact ⟨h, (fallback_is_fresh_shuffle randZero h).1⟩

/-- C5: for every random stream the generator terminates with a bounded
amount of work: it consumes at most 35 * 1001 draws, that is, at most
1000 attempts of 35 draws plus one fallback pair of shuffles. -/
theorem generator_bounded (rand : Nat → Nat) :
    (generateValidAssignment rand).2 ≤ 35 * 1001 := by
  have h := genLoop_snd_le rand 1000 0
  rw [generateValidAssignment_eq]
  omega

/-- C6: the fallback diagnostic, carrying the attempt budget 1000, is
emitted exactly once when and only when no attempt within the budget
passes validation, and no diagnostic is emitted otherwise. -/
theorem generator_diagnostics (rand : Nat → Nat) :
    ((generateValidAssignment rand).1.warnings = [] ↔
      ∃ m, m < 1000 ∧ validBoard ((attemptAt rand (35 * m)).1) = true) ∧
    ((generateValidAssignment rand).1.warnings = [] ∨
      (generateValidAssignment rand).1.warnings = [1000]) := by
  constructor
  · rw [generateValidAssignment_eq, genLoop_no_warning_iff rand 1000 0]
    constructor
    · rintro ⟨m, hm, hv⟩
      refine ⟨m, hm, ?_⟩
      rwa [Nat.zero_add] at hv
    · rintro ⟨m, hm, hv⟩
      refine ⟨m, hm, ?_⟩
      rwa [Nat.zero_add]
  · rw [generateValidAssignment_eq]
    exact genLoop_warning_shape rand 1000 0

/-- Witness for C6 at randGood: no diagnostic, and indeed some attempt in
the budget passes validation. -/
theorem generator_diagnostics_witness :
    (generateValidAssignment randGood).1.warnings = [] ∧
    ∃ m, m < 1000 ∧ validBoard ((attemptAt randGood (35 * m)).1) = true := by
  have h : (generateValidAssignment randGood).1.warnings = [] := by decide
  exact ⟨h, ((generator_diagnostics randGood).1).mp h⟩

/-- C7: the static adjacency table is symmetric on position indices
0..18: if q is listed among the neighbors of p then p is listed among the
neighbors of q. -/
theorem adjacencyMap_symmetric :
    ∀ p, p < 19 → ∀ q, q < 19 → q ∈ adjacencyMap p → p ∈ adjacencyMap q := by
  decide

/-- Witness for C7 at the concrete pair p = 0, q = 1. -/
theorem adjacencyMap_symmetric_witness :
    (1 ∈ adjacencyMap 0) ∧ (0 ∈ adjacencyMap 1) :=
  ⟨by decide, adjacencyMap_symmetric 0 (by decide) 1 (by decide) (by decide)⟩

/-- C8: the pip count equals 6 - |7 - token| for every token value, with
the claimed concrete values, and a token is flagged red exactly when its
pip count is 5, which happens exactly for tokens 6 and 8. -/
theorem pip_count_spec :
    (∀ n : Int, dotCount n = 6 - |7 - n|) ∧
    dotCount 2 = 1 ∧ dotCount 6 = 5 ∧ dotCount 7 = 6 ∧
    dotCount 8 = 5 ∧ dotCount 12 = 1 ∧
    (∀ n : Int, isRed n = true ↔ (n = 6 ∨ n = 8)) := by
  refine ⟨fun n => rfl, by decide, by decide, by decide, by decide, by decide, fun n => ?_⟩
  rw [isRed, beq_iff_eq, dotCount]
  rcases le_or_lt n 7 with h7 | h7
  · rw [abs_of_nonneg (by omega : (0 : Int) ≤ 7 - n)]
    constructor
    · intro h
      left
      omega
    · intro h
      rcases h with h | h <;> omega
  · rw [abs_of_neg (by omega : (7 : Int) - n < 0)]
    constructor
    · intro h
      right
      omega
    · intro h
      rcases h with h | h <;> omega

/-- Witness for C8: token 8 is flagged red. -/
theorem pip_count_spec_witness : isRed 8 = true :=
  (pip_count_spec.2.2.2.2.2.2 8).mpr (Or.inr rfl)

/-- C9: the generator is deterministic modulo its randomness source: two
streams that agree on every draw the first run consumes produce identical
results (same terrains, tokens, diagnostics and draw count). -/
theorem generator_deterministic (r1 r2 : Nat → Nat)
    (h : ∀ m, m < (generateValidAssignment r1).2 → r1 m = r2 m) :
    generateValidAssignment r1 = generateValidAssignment r2 := by
  rw [generateValidAssignment_eq, generateValidAssignment_eq]
  apply genLoop_congr
  intro m hm1 hm2
  apply h
  rw [generateValidAssignment_eq]
  exact hm2

/-- Witness for C9: randGoodVar agrees with randGood on the 35 draws the
first run consumes and differs later, yet the results coincide. -/
theorem generator_deterministic_witness :
    (∀ m, m < (generateValidAssignment randGood).2 → randGood m = randGoodVar m) ∧
    generateValidAssignment randGood = generateValidAssignment randGoodVar := by
  have h : ∀ m, m < (generateValidAssignment randGood).2 → randGood m = randGoodVar m := by
    decide
  exact ⟨h, generator_deterministic randGood randGoodVar h⟩

/-- C10: every attempt, in the loop and in the fallback branch alike,
shuffles fresh copies of the full static tables: whatever the stream and
the draw position, the attempt's terrain shuffle is a permutation of the
terrain multiset and its token shuffle a permutation of the token
multiset, so each invocation draws from the full, unmodified tables. -/
theorem generator_frame (rand : Nat → Nat) (k : Nat) :
    List.Perm (attemptShuffles rand k).1.1 terrains ∧
    List.Perm (attemptShuffles rand k).1.2 tokens ∧
    terrains.length = 19 ∧ tokens.length = 18 :=
  ⟨attemptShuffles_terrains_perm rand k, attemptShuffles_tokens_perm rand k, rfl, rfl⟩

end Catan
